import Mathlib

/-!
Verification of the transfer/synchronization core of a file-server CLI.

The Rust sources are shallowly embedded: strings are Lean `String`s
(accessed through their `data : List Char`, so "characters" are Unicode
scalar values; the Rust code slices bytes, which coincides on the ASCII
listings in scope), machine integers are `Nat` with explicit bounds where
relevant, fallible operations return `Option`/`Except` or a success flag,
and I/O effects (network results, local filesystem) are explicit values
threaded through the functions.
-/

/-- A whitespace character, as used by `str::split_whitespace` and
`str::trim` (restricted to the ASCII whitespace that appears in listings). -/
def isWS (c : Char) : Bool := c.isWhitespace

/-- Model of `str::split_whitespace`: split into the maximal runs of non-whitespace
characters; empty tokens never occur. -/
def tokens : List Char → List (List Char)
  | [] => []
  | [c] => if isWS c then [] else [[c]]
  | c :: d :: cs =>
    if isWS c then tokens (d :: cs)
    else if isWS d then [c] :: tokens (d :: cs)
    else
      match tokens (d :: cs) with
      | [] => [[c]]
      | t :: ts => (c :: t) :: ts

/-- Model of `str::trim`: strip leading and trailing whitespace. -/
def trimList (l : List Char) : List Char :=
  (l.dropWhile isWS).rdropWhile isWS

/-- Model of `Vec::join(" ")` on tokens: interleave single spaces. -/
def joinSpaces : List (List Char) → List Char
  | [] => []
  | [t] => t
  | t :: ts => t ++ ' ' :: joinSpaces ts

/-- Numeric value of a digit list, most significant first. -/
def digitsVal (l : List Char) : Nat :=
  l.foldl (fun a c => a * 10 + (c.toNat - 48)) 0

/-- Model of `str::parse::<u64>()`: an optional leading `+`, then one or more ASCII
digits, value below `2 ^ 64`; anything else is an error. -/
def parseU64 (l : List Char) : Option Nat :=
  let l' := match l with
    | '+' :: r => r
    | _ => l
  if l' ≠ [] ∧ l'.all Char.isDigit ∧ digitsVal l' < 2 ^ 64 then some (digitsVal l')
  else none

/-- Model of `str::starts_with(c)` for a single character. -/
def startsWithChar (l : List Char) (c : Char) : Bool :=
  match l with
  | [] => false
  | x :: _ => x == c

/-- Model of `str::trim_end_matches('/')`: remove every trailing `/`. -/
def trimEndSlashes (l : List Char) : List Char :=
  l.rdropWhile (fun c => c == '/')

/-- The `RemoteFile` record (`src/client/mod.rs`).  The `modified` field is
`chrono::Local::now()` at parse time in both backends; wall-clock time is
outside the embedding, so it is carried as `Unit`. -/
structure RemoteFile where
  name : String
  path : String
  size : Nat
  modified : Unit
  is_dir : Bool
deriving DecidableEq, Repr

/-- Model of `FtpClient::parse_list_line` (`src/client/ftp.rs`): split the line on
whitespace; reject under nine tokens; token 0 starting with `d` marks a
directory; token 4 parses as the size (0 on failure); tokens 8.. joined by
single spaces form the name.  The `path` field is set to the name here and
overwritten by `list_files`. -/
def FtpClient.parse_list_line (line : String) : Option RemoteFile :=
  let parts := tokens line.data
  if parts.length < 9 then none
  else
    let is_dir := startsWithChar (parts.getD 0 []) 'd'
    let size := (parseU64 (parts.getD 4 [])).getD 0
    let name := joinSpaces (parts.drop 8)
    some { name := ⟨name⟩, path := ⟨name⟩, size := size, modified := (), is_dir := is_dir }

/-- Model of `FtpClient::list_files` (network fetch abstracted to the list of raw
listing lines the server returned): parse each line, then rewrite `path`
to `trim_end_matches(path, '/') + "/" + name`. -/
def FtpClient.list_files (path : String) (listing : List String) : List RemoteFile :=
  (listing.filterMap FtpClient.parse_list_line).map fun f =>
    { f with path := ⟨trimEndSlashes path.data ++ '/' :: f.name.data⟩ }

/-- The literal summary marker `smbclient` prints, `"blocks of size"`. -/
def blocksMarker : List Char := "blocks of size".data

/-- Model of `SmbClient::parse_list_line` (`src/client/smb.rs`): skip empty lines and
the disk-space summary; require length at least 36; the trimmed first 35
characters are the name (skipping `.` and `..`); the remainder splits on
whitespace into the attribute token and an optional size token; `D` in the
attributes marks a directory; the size token parses as `u64` (0 on failure,
absence, or for directories); the path is `/name` when the base path is
exactly `/` and `trim_end_matches(base, '/') + "/" + name` otherwise. -/
def SmbClient.parse_list_line (line : String) (base_path : String) : Option RemoteFile :=
  let l := line.data
  let trimmed := trimList l
  if trimmed = [] ∨ blocksMarker <:+: trimmed then none
  else if l.length < 36 then none
  else
    let name := trimList (l.take 35)
    if name = ['.'] ∨ name = ['.', '.'] then none
    else
      let rest := trimList (l.drop 35)
      match tokens rest with
      | [] => none
      | attributes :: restParts =>
        let is_dir := attributes.contains 'D'
        let size :=
          if restParts.length ≥ 1 ∧ ¬is_dir then (parseU64 (restParts.getD 0 [])).getD 0
          else 0
        let path :=
          if base_path.data = ['/'] then '/' :: name
          else trimEndSlashes base_path.data ++ '/' :: name
        some { name := ⟨name⟩, path := ⟨path⟩, size := size, modified := (), is_dir := is_dir }

/-- Model of `SmbClient::list_files` (the `smbclient` invocation abstracted to the
raw output lines): parse each line against the requested path. -/
def SmbClient.list_files (path : String) (outputLines : List String) : List RemoteFile :=
  outputLines.filterMap fun line => SmbClient.parse_list_line line path

/-! ### Local filesystem model

Paths are segment lists; `dirs` is the set of existing directories and
`files` maps a path to its byte content.  This is the state the download
operations read and write. -/

structure LocalFS where
  dirs : List (List String)
  files : List (List String × List Nat)
deriving DecidableEq, Repr

/-- The parent directory of a path (`Path::parent`). -/
def parentDir (p : List String) : List String := p.dropLast

def LocalFS.dirExists (fs : LocalFS) (d : List String) : Bool :=
  fs.dirs.contains d

/-- Model of `create_dir_all`: the directory and all its ancestors exist afterwards. -/
def LocalFS.create_dir_all (fs : LocalFS) (d : List String) : LocalFS :=
  { fs with dirs := ((List.range (d.length + 1)).map fun k => d.take k) ++ fs.dirs }

/-- Model of `File::create` + `write_all`: truncate or create, then write. -/
def LocalFS.writeFile (fs : LocalFS) (p : List String) (data : List Nat) : LocalFS :=
  { fs with files := (p, data) :: fs.files.filter fun q => !(q.1 == p) }

def LocalFS.readFile (fs : LocalFS) (p : List String) : Option (List Nat) :=
  (fs.files.find? fun q => q.1 == p).map Prod.snd

/-- Network-side outcome of one `FtpClient::download_file` call, in the
order the code performs the steps: `FtpStream::connect` + `login`, then
`retr_as_buffer` + `read_to_end` (the whole remote content, or failure),
then `quit`. -/
structure FtpDownloadEnv where
  connectOk : Bool
  retrData : Option (List Nat)
  quitOk : Bool
deriving DecidableEq, Repr

/-- Model of `FtpClient::download_file` (`src/client/ftp.rs`): connect, retrieve the
whole file into memory, quit, and only then `File::create` + `write_all`.
Each fallible step propagates its error (`?`), leaving the local
filesystem untouched; `File::create` fails when the parent directory does
not exist (no directory is created here) and truncates an existing file
otherwise.  Returns the resulting filesystem and a success flag. -/
def FtpClient.download_file (env : FtpDownloadEnv) (local_path : List String)
    (fs : LocalFS) : LocalFS × Bool :=
  if !env.connectOk then (fs, false)
  else
    match env.retrData with
    | none => (fs, false)
    | some data =>
      if !env.quitOk then (fs, false)
      else if fs.dirExists (parentDir local_path) then
        (fs.writeFile local_path data, true)
      else (fs, false)

/-- Model of `SmbClient::download_file` (`src/client/smb.rs`): `create_dir_all` on
the parent of the local path first, then run `smbclient ... get`, which
writes the file itself (`getData` is its outcome: the fetched content, or
failure). -/
def SmbClient.download_file (getData : Option (List Nat)) (local_path : List String)
    (fs : LocalFS) : LocalFS × Bool :=
  let fs1 := fs.create_dir_all (parentDir local_path)
  match getData with
  | none => (fs1, false)
  | some data => (fs1.writeFile local_path data, true)

/-! ### Connection manager model (`src/connection.rs`) -/

inductive Protocol
  | Ftp
  | Smb
deriving DecidableEq, Repr

/-- The `Config` record (`src/config.rs`). -/
structure Config where
  server_ip : String
  username : String
  password : Option String
  default_protocol : Protocol
  configured : Bool
deriving DecidableEq, Repr

/-- A backend `connect` attempt, with the arguments the manager passes. -/
inductive ConnectAttempt
  | smb (host username password share : String)
  | ftp (host username password : String)
deriving DecidableEq, Repr

inductive ConnectResult
  | connected (backend : Protocol)
  | configErr (msg : String)
  | networkErr (msg : String)
deriving DecidableEq, Repr

/-- Model of `ConnectionManager::connect`: return the cached backend when present;
fail `ConfigError` without any attempt when no password is configured;
otherwise try `SmbClient::new(server_ip, username, password, "share")`,
and on its failure `FtpClient::new(server_ip + ":21", ...)`; when both
fail return the fixed error message (the two causes are only printed to
stderr).  `smbRes`/`ftpRes` are the network-side outcomes of the two
backends' `connect` calls; the returned list records the attempts made,
in order. -/
def ConnectionManager.connect (cfg : Config) (cached : Option Protocol)
    (smbRes ftpRes : Except String Unit) : List ConnectAttempt × ConnectResult :=
  match cached with
  | some b => ([], .connected b)
  | none =>
    match cfg.password with
    | none => ([], .configErr "Password not configured")
    | some pw =>
      let smbAtt := ConnectAttempt.smb cfg.server_ip cfg.username pw "share"
      match smbRes with
      | .ok _ => ([smbAtt], .connected .Smb)
      | .error _ =>
        let ftpAtt := ConnectAttempt.ftp (cfg.server_ip ++ ":21") cfg.username pw
        match ftpRes with
        | .ok _ => ([smbAtt, ftpAtt], .connected .Ftp)
        | .error _ =>
          ([smbAtt, ftpAtt],
           .networkErr "Failed to connect to file server via both SMB and FTP")

/-! ### Parallel download engine model (`src/download.rs`)

`download_files` maps every input pair through `download_single_file` and
collects the per-item results with `buffer_unordered`, i.e. in completion
order.  The nondeterministic completion order is an explicit parameter: a
list of indices into the input.  The per-item network/filesystem outcomes
are an oracle from the item to its step results. -/

/-- Outcomes of the three fallible steps of `download_single_file`, in
program order: `get_file_size`, `create_dir_all` on the local parent, and
`download_file`. -/
structure ItemEnv where
  sizeRes : Except String Nat
  mkdirRes : Except String Unit
  dlRes : Except String Unit
deriving Repr

/-- Model of `ParallelDownloader::download_single_file`: query the size (failing the
item on error), create the local parent directory, download; the first
error is the item's result. -/
def ParallelDownloader.download_single_file (env : ItemEnv) : Except String Unit := do
  let _ ← env.sizeRes
  let _ ← env.mkdirRes
  let _ ← env.dlRes

/-- Model of `ParallelDownloader::download_files`: the collection-level result is
always `ok`; the vector holds each admitted item's individual result, in
the completion order `completion`. -/
def ParallelDownloader.download_files (envOf : String × String → ItemEnv)
    (files : List (String × String)) (completion : List (Fin files.length)) :
    Except String (List (Except String Unit)) :=
  Except.ok (completion.map fun i =>
    ParallelDownloader.download_single_file (envOf (files.get i)))

/-! ### Sync planner model (`src/main.rs`, `Commands::Sync` arm)

The local directory scan is a table of the immediate regular-file children,
name ↦ size (`read_dir` + `metadata.len()`); the remote side is the
listing.  The planner filters the listing to non-directory entries,
downloads those absent locally or of a different size, and uploads local
files whose names are absent among the remote non-directory names. -/

/-- Look a file name up in the scanned local table (`HashMap::get`). -/
def lookupSize (localFiles : List (String × Nat)) (n : String) : Option Nat :=
  (localFiles.find? fun p => p.1 == n).map Prod.snd

/-- Names of the non-directory remote entries (`remote_names` in the code). -/
def remoteFileNames (remote : List RemoteFile) : List String :=
  (remote.filter fun f => !f.is_dir).map fun f => f.name

/-- The download set: every remote non-directory entry whose name is absent
locally or whose local size differs from the remote size (`to_download`;
each entry becomes the pair `(f.path, localDir.join(f.name))`). -/
def syncDownloadSet (remote : List RemoteFile) (localFiles : List (String × Nat)) :
    List RemoteFile :=
  (remote.filter fun f => !f.is_dir).filter fun f =>
    match lookupSize localFiles f.name with
    | some sz => sz != f.size
    | none => true

/-- The upload set: every local file whose name is absent among the remote
non-directory names (`to_upload`; each becomes
`(localPath, trim_end_matches(remoteDir, '/') + "/" + name)`). -/
def syncUploadSet (remote : List RemoteFile) (localFiles : List (String × Nat)) :
    List (String × Nat) :=
  localFiles.filter fun p => !(remoteFileNames remote).contains p.1

/-- Local directory after every planned download succeeds: each downloaded
remote file lands at `localDir/f.name` with the remote content, so the next
scan reads name ↦ remote size; all other entries are untouched. -/
def applyDownloads (localFiles : List (String × Nat)) (dl : List RemoteFile) :
    List (String × Nat) :=
  (dl.map fun f => (f.name, f.size)) ++
    localFiles.filter fun p => (dl.find? fun f => f.name == p.1).isNone

/-- Remote directory after every planned upload succeeds: each uploaded
local file appears in the next listing as a non-directory entry of its
local size at `trim_end_matches(remoteDir, '/') + "/" + name`. -/
def applyUploads (remote : List RemoteFile) (remoteDir : String)
    (ul : List (String × Nat)) : List RemoteFile :=
  remote ++ ul.map fun p =>
    { name := p.1, path := ⟨trimEndSlashes remoteDir.data ++ '/' :: p.1.data⟩,
      size := p.2, modified := (), is_dir := false }

/-! ## Helper lemmas -/

/-- Inversion of the FTP listing parser. -/
theorem ftp_parse_some_iff (line : String) (f : RemoteFile) :
    FtpClient.parse_list_line line = some f ↔
      9 ≤ (tokens line.data).length ∧
      f = { name := ⟨joinSpaces ((tokens line.data).drop 8)⟩,
            path := ⟨joinSpaces ((tokens line.data).drop 8)⟩,
            size := (parseU64 ((tokens line.data).getD 4 [])).getD 0,
            modified := (),
            is_dir := startsWithChar ((tokens line.data).getD 0 []) 'd' } := by
  unfold FtpClient.parse_list_line
  dsimp only
  split
  · rename_i h
    simp only [reduceCtorEq, false_iff, not_and]
    intro h9
    omega
  · rename_i h
    simp only [Option.some.injEq]
    constructor
    · intro hf
      exact ⟨by omega, hf.symm⟩
    · intro ⟨_, hf⟩
      exact hf.symm

/-- Inversion of the SMB listing parser. -/
theorem smb_parse_some_iff (line base : String) (f : RemoteFile) :
    SmbClient.parse_list_line line base = some f ↔
      ¬(trimList line.data = [] ∨ blocksMarker <:+: trimList line.data) ∧
      ¬(line.data.length < 36) ∧
      ¬(trimList (line.data.take 35) = ['.'] ∨
        trimList (line.data.take 35) = ['.', '.']) ∧
      tokens (trimList (line.data.drop 35)) ≠ [] ∧
      f = { name := ⟨trimList (line.data.take 35)⟩,
            path := ⟨if base.data = ['/'] then '/' :: trimList (line.data.take 35)
                     else trimEndSlashes base.data ++
                       '/' :: trimList (line.data.take 35)⟩,
            size := if ((tokens (trimList (line.data.drop 35))).tail).length ≥ 1 ∧
                       ¬((tokens (trimList (line.data.drop 35))).getD 0 []).contains 'D'
                    then (parseU64 ((tokens
                      (trimList (line.data.drop 35))).tail.getD 0 [])).getD 0
                    else 0,
            modified := (),
            is_dir := ((tokens (trimList (line.data.drop 35))).getD 0 []).contains 'D' } := by
  unfold SmbClient.parse_list_line
  dsimp only
  split
  · rename_i h
    simp only [reduceCtorEq, false_iff, not_and]
    intro h'
    exact absurd h h'
  · rename_i h1
    split
    · rename_i h2
      simp only [reduceCtorEq, false_iff, not_and]
      intro _ h'
      exact absurd h2 h'
    · rename_i h2
      split
      · rename_i h3
        simp only [reduceCtorEq, false_iff, not_and]
        intro _ _ h'
        exact absurd h3 h'
      · rename_i h3
        split
        · rename_i heq
          simp only [reduceCtorEq, false_iff, not_and]
          intro _ _ _ h'
          exact absurd heq h'
        · rename_i attributes restParts heq
          rw [heq]
          simp only [Option.some.injEq, List.getD_cons_zero, List.tail_cons,
            ne_eq, reduceCtorEq, not_false_eq_true, true_and]
          constructor
          · intro hf
            exact ⟨h1, h2, h3, hf.symm⟩
          · intro ⟨_, _, _, hf⟩
            exact hf.symm

/-- A pattern whose first character the predicate rejects occurs in a list
iff it occurs after `dropWhile`. -/
theorem infix_dropWhile_iff (p : Char → Bool) (pat l : List Char)
    (hh : ∀ (c : Char) (t : List Char), pat = c :: t → p c = false) :
    pat <:+: l.dropWhile p ↔ pat <:+: l := by
  constructor
  · intro h
    exact h.trans (List.dropWhile_suffix p).isInfix
  · intro h
    induction l with
    | nil => simpa using h
    | cons x xs ih =>
      rw [List.dropWhile_cons]
      cases hpx : p x with
      | false => simpa [hpx] using h
      | true =>
        simp only [hpx, if_true]
        apply ih
        rcases List.infix_cons_iff.mp h with hpre | hinf
        · cases pat with
          | nil => exact List.nil_infix
          | cons a as =>
            obtain ⟨t, ht⟩ := hpre
            have ha : a = x := by
              have := congrArg (fun m => m.headD ' ') ht
              simpa using this
            have := hh a as rfl
            rw [ha, hpx] at this
            exact absurd this (by simp)
        · exact hinf

/-- The mirror statement for `rdropWhile` and the last character. -/
theorem infix_rdropWhile_iff (p : Char → Bool) (pat l : List Char)
    (hh : ∀ (c : Char) (t : List Char), pat.reverse = c :: t → p c = false) :
    pat <:+: l.rdropWhile p ↔ pat <:+: l := by
  calc pat <:+: l.rdropWhile p
      ↔ pat.reverse <:+: (l.rdropWhile p).reverse := List.reverse_infix.symm
    _ ↔ pat.reverse <:+: l.reverse.dropWhile p := by
          rw [List.rdropWhile, List.reverse_reverse]
    _ ↔ pat.reverse <:+: l.reverse := infix_dropWhile_iff p pat.reverse l.reverse hh
    _ ↔ pat <:+: l := List.reverse_infix

/-- The summary marker occurs in a line iff it occurs in the trimmed line:
its first and last characters are not whitespace. -/
theorem blocksMarker_infix_trim_iff (l : List Char) :
    blocksMarker <:+: trimList l ↔ blocksMarker <:+: l := by
  unfold trimList
  rw [infix_rdropWhile_iff, infix_dropWhile_iff]
  · intro c t h
    have hc : c = 'b' := by
      have := congrArg (fun m => m.headD ' ') h
      simpa [blocksMarker] using this.symm
    subst hc
    decide
  · intro c t h
    have hc : c = 'e' := by
      have := congrArg (fun m => m.headD ' ') h
      simpa [blocksMarker] using this.symm
    subst hc
    decide

/-- A string equals `"/"` iff its character list is `['/']`. -/
theorem string_eq_slash_iff (s : String) : s = "/" ↔ s.data = ['/'] := by
  constructor
  · intro h
    rw [h]
  · intro h
    cases s
    cases h
    rfl

/-! ## Claim theorems -/

/-- Claim C5: the FTP listing parser accepts a line iff it has at least nine
whitespace-separated tokens; on an accepted line `is_dir` is true iff
token 0's first character is `d`, `size` is the `u64` parse of token 4
(0 on parse failure), and `name` is tokens 8 onward joined by single
spaces; lines with fewer than nine tokens yield no entry. -/
theorem C5_ftp_parse_spec (line : String) :
    ((FtpClient.parse_list_line line).isSome ↔ 9 ≤ (tokens line.data).length) ∧
    ∀ f, FtpClient.parse_list_line line = some f →
      (f.is_dir = true ↔ ∃ r, (tokens line.data).getD 0 [] = 'd' :: r) ∧
      f.size = (parseU64 ((tokens line.data).getD 4 [])).getD 0 ∧
      f.name = ⟨joinSpaces ((tokens line.data).drop 8)⟩ := by
  constructor
  · constructor
    · intro h
      obtain ⟨f, hf⟩ := Option.isSome_iff_exists.mp h
      exact ((ftp_parse_some_iff line f).mp hf).1
    · intro h
      rw [Option.isSome_iff_exists]
      exact ⟨_, (ftp_parse_some_iff line _).mpr ⟨h, rfl⟩⟩
  · intro f hf
    obtain ⟨h9, hfeq⟩ := (ftp_parse_some_iff line f).mp hf
    subst hfeq
    refine ⟨?_, rfl, rfl⟩
    cases htok : (tokens line.data).getD 0 [] with
    | nil => simp [htok, startsWithChar]
    | cons a as =>
      simp only [htok, startsWithChar, beq_iff_eq]
      constructor
      · intro ha
        exact ⟨as, by rw [ha]⟩
      · rintro ⟨r, hr⟩
        injection hr with h1 _

/-- Claim C6: the SMB listing parser skips a line iff it trims to empty, contains
the substring `"blocks of size"`, is shorter than 36 characters, its first
35 characters trim to `.` or `..`, or the tail after column 35 splits to no
whitespace token; otherwise the entry's name is the trimmed first 35
characters, `is_dir` is the presence of `D` in the first tail token, `size`
is the `u64` parse of tail token 1 (0 on parse failure, absence, or for
directories), and `path` is `/` + name when the base path is exactly `/`
and `trim_end_matches(base, '/') + "/" + name` otherwise. -/
theorem C6_smb_parse_spec (line base : String) :
    (SmbClient.parse_list_line line base = none ↔
       trimList line.data = [] ∨ blocksMarker <:+: line.data ∨
       line.data.length < 36 ∨
       trimList (line.data.take 35) = ['.'] ∨
       trimList (line.data.take 35) = ['.', '.'] ∨
       tokens (trimList (line.data.drop 35)) = []) ∧
    ∀ f, SmbClient.parse_list_line line base = some f →
      f.name = ⟨trimList (line.data.take 35)⟩ ∧
      (f.is_dir = true ↔ 'D' ∈ (tokens (trimList (line.data.drop 35))).getD 0 []) ∧
      f.size = (if f.is_dir = true ∨ (tokens (trimList (line.data.drop 35))).length < 2
                then 0
                else (parseU64 ((tokens (trimList (line.data.drop 35))).getD 1 [])).getD 0) ∧
      f.path = ⟨if base = "/" then '/' :: f.name.data
                else trimEndSlashes base.data ++ '/' :: f.name.data⟩ := by
  have hinv := smb_parse_some_iff line base
  constructor
  · rw [← blocksMarker_infix_trim_iff]
    constructor
    · intro hnone
      by_contra hdisj
      push_neg at hdisj
      obtain ⟨hd1, hd2, hd3, hd4, hd5, hd6⟩ := hdisj
      have : SmbClient.parse_list_line line base = some _ :=
        (hinv _).mpr ⟨by tauto, by omega, by tauto, hd6, rfl⟩
      rw [hnone] at this
      exact Option.noConfusion this
    · intro hdisj
      cases hp : SmbClient.parse_list_line line base with
      | none => rfl
      | some f =>
        obtain ⟨h1, h2, h3, h4, _⟩ := (hinv f).mp hp
        push_neg at h1 h3
        rcases hdisj with h | h | h | h | h | h
        · exact absurd h h1.1
        · exact absurd h h1.2
        · omega
        · exact absurd h h3.1
        · exact absurd h h3.2
        · exact absurd h h4
  · intro f hf
    obtain ⟨h1, h2, h3, h4, hfeq⟩ := (hinv f).mp hf
    subst hfeq
    dsimp only
    refine ⟨rfl, ?_, ?_, ?_⟩
    · simp only [List.contains]
      exact List.elem_iff
    · cases hps : tokens (trimList (line.data.drop 35)) with
      | nil => exact absurd hps h4
      | cons p0 rest =>
        simp only [hps, List.getD_cons_zero, List.tail_cons, List.length_cons,
          List.getD_cons_succ]
        split_ifs with hA hB hB
        · obtain ⟨hlen, hnd⟩ := hA
          rcases hB with hB | hB
          · exact absurd hB hnd
          · omega
        · rfl
        · rfl
        · push_neg at hA hB
          obtain ⟨hnd, hlen⟩ := hB
          exact absurd (hA (by omega)) hnd
    · simp only [string_eq_slash_iff]

/-- Claim C5, witness: the nine-token directory line `"d 1 2 3 4 5 6 7 8"`. -/
theorem C5_ftp_parse_spec_witness :
    FtpClient.parse_list_line "d 1 2 3 4 5 6 7 8" =
      some { name := "8", path := "8", size := 4, modified := (), is_dir := true } ∧
    ((({ name := "8", path := "8", size := 4, modified := (),
         is_dir := true : RemoteFile }).is_dir = true ↔
        ∃ r, (tokens ("d 1 2 3 4 5 6 7 8" : String).data).getD 0 [] = 'd' :: r) ∧
      ({ name := "8", path := "8", size := 4, modified := (),
         is_dir := true : RemoteFile }).size =
        (parseU64 ((tokens ("d 1 2 3 4 5 6 7 8" : String).data).getD 4 [])).getD 0 ∧
      ({ name := "8", path := "8", size := 4, modified := (),
         is_dir := true : RemoteFile }).name =
        ⟨joinSpaces ((tokens ("d 1 2 3 4 5 6 7 8" : String).data).drop 8)⟩) :=
  ⟨rfl, (C5_ftp_parse_spec _).2 _ rfl⟩

set_option maxRecDepth 8192 in
/-- Claim C6, witness: the fixed-width SMB directory line for `Documents`. -/
theorem C6_smb_parse_spec_witness :
    SmbClient.parse_list_line
        "  Documents                         D        0  Wed Dec 25 10:30:45 2024" "/" =
      some { name := "Documents", path := "/Documents", size := 0, modified := (),
             is_dir := true } ∧
    (({ name := "Documents", path := "/Documents", size := 0, modified := (),
        is_dir := true : RemoteFile }).name =
       ⟨trimList (("  Documents                         D        0  Wed Dec 25 10:30:45 2024" : String).data.take 35)⟩ ∧
     (({ name := "Documents", path := "/Documents", size := 0, modified := (),
         is_dir := true : RemoteFile }).is_dir = true ↔
        'D' ∈ (tokens (trimList (("  Documents                         D        0  Wed Dec 25 10:30:45 2024" : String).data.drop 35))).getD 0 []) ∧
     ({ name := "Documents", path := "/Documents", size := 0, modified := (),
        is_dir := true : RemoteFile }).size =
       (if ({ name := "Documents", path := "/Documents", size := 0, modified := (),
              is_dir := true : RemoteFile }).is_dir = true ∨
           (tokens (trimList (("  Documents                         D        0  Wed Dec 25 10:30:45 2024" : String).data.drop 35))).length < 2
        then 0
        else (parseU64 ((tokens (trimList (("  Documents                         D        0  Wed Dec 25 10:30:45 2024" : String).data.drop 35))).getD 1 [])).getD 0) ∧
     ({ name := "Documents", path := "/Documents", size := 0, modified := (),
        is_dir := true : RemoteFile }).path =
       ⟨if ("/" : String) = "/"
        then '/' :: ({ name := "Documents", path := "/Documents", size := 0, modified := (),
                       is_dir := true : RemoteFile }).name.data
        else trimEndSlashes ("/" : String).data ++
          '/' :: ({ name := "Documents", path := "/Documents", size := 0, modified := (),
                    is_dir := true : RemoteFile }).name.data⟩) :=
  ⟨rfl, (C6_smb_parse_spec _ _).2 _ rfl⟩

/-- Claim C1, counterexample: the FTP parser does not filter `.`/`..`; a standard
long-listing line for `.` has nine tokens and is returned as an entry
named `.` by `list_files`. -/
theorem C1_cex_ftp_list_returns_dot :
    (FtpClient.list_files "/" ["drwxr-xr-x 2 user group 4096 Nov 15 10:30 ."]).any
      (fun f => f.name == ".") = true := by
  rfl

/-- Claim C1, amended: the SMB backend's list never returns an entry named `.` or
`..` (the FTP backend lacks the filter, see the counterexample). -/
theorem C1_amended_smb_never_lists_dot (path : String) (lines : List String)
    (f : RemoteFile) (hf : f ∈ SmbClient.list_files path lines) :
    f.name ≠ "." ∧ f.name ≠ ".." := by
  obtain ⟨line, hline, hparse⟩ := List.mem_filterMap.mp hf
  obtain ⟨h1, h2, h3, h4, hfeq⟩ := (smb_parse_some_iff line path f).mp hparse
  push_neg at h3
  subst hfeq
  constructor
  · intro h
    exact h3.1 (congrArg String.data h)
  · intro h
    exact h3.2 (congrArg String.data h)

set_option maxRecDepth 8192 in
/-- Claim C1, witness: the `Documents` entry of a well-formed SMB listing. -/
theorem C1_amended_smb_never_lists_dot_witness :
    ({ name := "Documents", path := "/Documents", size := 0, modified := (),
       is_dir := true : RemoteFile } ∈
      SmbClient.list_files "/"
        ["  Documents                         D        0  Wed Dec 25 10:30:45 2024"]) ∧
    ({ name := "Documents", path := "/Documents", size := 0, modified := (),
       is_dir := true : RemoteFile }).name ≠ "." ∧
    ({ name := "Documents", path := "/Documents", size := 0, modified := (),
       is_dir := true : RemoteFile }).name ≠ ".." :=
  ⟨by decide,
   C1_amended_smb_never_lists_dot "/"
     ["  Documents                         D        0  Wed Dec 25 10:30:45 2024"]
     { name := "Documents", path := "/Documents", size := 0, modified := (),
       is_dir := true } (by decide)⟩

/-- Claim C2, counterexample: the FTP parser reports the listed size for a
directory — `is_dir = true` with `size = 4096 ≠ 0` (the repository's own
unit test asserts exactly this). -/
theorem C2_cex_ftp_dir_nonzero_size :
    (FtpClient.parse_list_line "drwxr-xr-x 2 user group 4096 Nov 15 10:30 Documents").map
      (fun f => (f.is_dir, f.size)) = some (true, 4096) := by
  rfl

/-- Claim C2, amended: the SMB parser does guarantee `size = 0` for directory
entries (the FTP parser does not, see the counterexample). -/
theorem C2_amended_smb_dir_size_zero (line base : String) (f : RemoteFile)
    (hf : SmbClient.parse_list_line line base = some f) (hd : f.is_dir = true) :
    f.size = 0 := by
  obtain ⟨h1, h2, h3, h4, hfeq⟩ := (smb_parse_some_iff line base f).mp hf
  subst hfeq
  show (if (tokens (trimList (line.data.drop 35))).tail.length ≥ 1 ∧
           ¬((tokens (trimList (line.data.drop 35))).getD 0 []).contains 'D' = true
        then (parseU64 ((tokens (trimList (line.data.drop 35))).tail.getD 0 [])).getD 0
        else 0) = 0
  rw [if_neg]
  rintro ⟨_, hcon⟩
  exact hcon hd

set_option maxRecDepth 8192 in
/-- Claim C2, witness: the `Documents` directory line parses with size 0. -/
theorem C2_amended_smb_dir_size_zero_witness :
    SmbClient.parse_list_line
        "  Documents                         D        0  Wed Dec 25 10:30:45 2024" "/" =
      some { name := "Documents", path := "/Documents", size := 0, modified := (),
             is_dir := true } ∧
    ({ name := "Documents", path := "/Documents", size := 0, modified := (),
       is_dir := true : RemoteFile }).is_dir = true ∧
    ({ name := "Documents", path := "/Documents", size := 0, modified := (),
       is_dir := true : RemoteFile }).size = 0 :=
  ⟨by decide, rfl,
   C2_amended_smb_dir_size_zero
     "  Documents                         D        0  Wed Dec 25 10:30:45 2024" "/"
     { name := "Documents", path := "/Documents", size := 0, modified := (),
       is_dir := true } (by decide) rfl⟩

/-- Running `create_dir_all` makes its target directory exist. -/
theorem LocalFS.dirExists_create_dir_all (fs : LocalFS) (d : List String) :
    (fs.create_dir_all d).dirExists d = true := by
  unfold LocalFS.dirExists LocalFS.create_dir_all
  rw [List.contains_eq_any_beq]
  rw [List.any_eq_true]
  refine ⟨d, List.mem_append_left _ ?_, by simp⟩
  exact List.mem_map.mpr ⟨d.length, List.mem_range.mpr (Nat.lt_succ_self _), List.take_length d⟩

/-- Writing a file does not change the directory set. -/
theorem LocalFS.dirExists_writeFile (fs : LocalFS) (p : List String)
    (data : List Nat) (d : List String) :
    (fs.writeFile p data).dirExists d = fs.dirExists d := rfl

/-- Reading back a just-written file yields the written content. -/
theorem LocalFS.readFile_writeFile (fs : LocalFS) (p : List String) (data : List Nat) :
    (fs.writeFile p data).readFile p = some data := by
  unfold LocalFS.readFile LocalFS.writeFile
  simp

/-- Claim C3, counterexample: the FTP backend's download does not create the
missing parent directory of the local path — with the remote retrieval
succeeding, the call fails and leaves the filesystem unchanged. -/
theorem C3_cex_ftp_download_missing_parent :
    FtpClient.download_file { connectOk := true, retrData := some [1, 2, 3], quitOk := true }
      ["d", "f"] { dirs := [[]], files := [] } =
      ({ dirs := [[]], files := [] }, false) := by
  rfl

/-- Claim C3, amended: the SMB backend's download creates the parent directory of
the local path whether or not it exists and overwrites any existing local
file with the remote content; the FTP backend's download overwrites the
local file with the remote content only when the parent directory already
exists (it never creates it). -/
theorem C3_amended_download_parent_dirs (data : List Nat) (lp : List String)
    (fs : LocalFS) :
    ((SmbClient.download_file (some data) lp fs).2 = true ∧
      ((SmbClient.download_file (some data) lp fs).1).dirExists (parentDir lp) = true ∧
      ((SmbClient.download_file (some data) lp fs).1).readFile lp = some data) ∧
    (fs.dirExists (parentDir lp) = true →
      FtpClient.download_file { connectOk := true, retrData := some data, quitOk := true }
          lp fs =
        (fs.writeFile lp data, true) ∧
      (fs.writeFile lp data).readFile lp = some data) := by
  constructor
  · refine ⟨rfl, ?_, ?_⟩
    · show ((fs.create_dir_all (parentDir lp)).writeFile lp data).dirExists (parentDir lp) = true
      rw [LocalFS.dirExists_writeFile]
      exact LocalFS.dirExists_create_dir_all fs (parentDir lp)
    · exact LocalFS.readFile_writeFile _ lp data
  · intro hparent
    refine ⟨?_, LocalFS.readFile_writeFile fs lp data⟩
    unfold FtpClient.download_file
    simp [hparent]

/-- Claim C3, witness: a filesystem where only the root exists; SMB creates
`["d"]`, and FTP succeeds once the parent is present. -/
theorem C3_amended_download_parent_dirs_witness :
    (((SmbClient.download_file (some [7]) ["d", "f"] { dirs := [[]], files := [] }).2 = true ∧
      ((SmbClient.download_file (some [7]) ["d", "f"]
          { dirs := [[]], files := [] }).1).dirExists (parentDir ["d", "f"]) = true ∧
      ((SmbClient.download_file (some [7]) ["d", "f"]
          { dirs := [[]], files := [] }).1).readFile ["d", "f"] = some [7]) ∧
     (({ dirs := [[], ["d"]], files := [] } :
          LocalFS).dirExists (parentDir ["d", "f"]) = true →
       FtpClient.download_file { connectOk := true, retrData := some [7], quitOk := true }
           ["d", "f"] { dirs := [[], ["d"]], files := [] } =
         (({ dirs := [[], ["d"]], files := [] } : LocalFS).writeFile ["d", "f"] [7], true) ∧
       (({ dirs := [[], ["d"]], files := [] } :
          LocalFS).writeFile ["d", "f"] [7]).readFile ["d", "f"] = some [7])) ∧
    ({ dirs := [[], ["d"]], files := [] } : LocalFS).dirExists (parentDir ["d", "f"]) = true :=
  ⟨⟨(C3_amended_download_parent_dirs [7] ["d", "f"] { dirs := [[]], files := [] }).1,
    (C3_amended_download_parent_dirs [7] ["d", "f"] { dirs := [[], ["d"]], files := [] }).2⟩,
   by decide⟩

/-- Claim C4, counterexample: the FTP parser joins whitespace-separated tokens, so
a name token containing `/` is passed through — `list_files` returns an
entry whose name contains `/`. -/
theorem C4_cex_ftp_name_contains_slash :
    (FtpClient.list_files "/" ["-rw-r--r-- 1 user group 10 Nov 15 10:30 a/b"]).any
      (fun f => f.name.data.contains '/') = true := by
  rfl

/-- Claim C4, amended: for both backends every returned entry's `path` ends with
`/` followed by its `name`; the parsers do not guarantee the name to be
slash-free (see the counterexample). -/
theorem C4_amended_path_ends_with_name (path base line : String) (lines : List String) :
    (∀ f ∈ FtpClient.list_files path lines,
       ∃ pre, f.path.data = pre ++ '/' :: f.name.data) ∧
    (∀ f, SmbClient.parse_list_line line base = some f →
       ∃ pre, f.path.data = pre ++ '/' :: f.name.data) := by
  constructor
  · intro f hf
    unfold FtpClient.list_files at hf
    obtain ⟨g, hg, hfeq⟩ := List.mem_map.mp hf
    subst hfeq
    exact ⟨trimEndSlashes path.data, rfl⟩
  · intro f hf
    obtain ⟨h1, h2, h3, h4, hfeq⟩ := (smb_parse_some_iff line base f).mp hf
    subst hfeq
    by_cases hb : base.data = ['/']
    · exact ⟨[], by simp [hb]⟩
    · exact ⟨trimEndSlashes base.data, by simp [hb]⟩

set_option maxRecDepth 8192 in
/-- Claim C4, witness: an FTP entry under `/docs` and an SMB entry under `/docs`. -/
theorem C4_amended_path_ends_with_name_witness :
    ({ name := "report.pdf", path := "/docs/report.pdf", size := 1024, modified := (),
       is_dir := false : RemoteFile } ∈
      FtpClient.list_files "/docs"
        ["-rw-r--r-- 1 user group 1024 Nov 15 10:30 report.pdf"]) ∧
    (∃ pre, ({ name := "report.pdf", path := "/docs/report.pdf", size := 1024,
               modified := (), is_dir := false : RemoteFile }).path.data =
      pre ++ '/' :: ({ name := "report.pdf", path := "/docs/report.pdf", size := 1024,
                       modified := (), is_dir := false : RemoteFile }).name.data) :=
  ⟨by decide,
   (C4_amended_path_ends_with_name "/docs" "/" ""
      ["-rw-r--r-- 1 user group 1024 Nov 15 10:30 report.pdf"]).1
     { name := "report.pdf", path := "/docs/report.pdf", size := 1024,
       modified := (), is_dir := false } (by decide)⟩

/-- Claim C10: the FTP download writes the local file only after the whole remote
file is retrieved and the session closed; when connecting/authenticating
fails or retrieval/reading fails, it returns failure with the filesystem
unchanged — no partial or empty file is created. -/
theorem C10_ftp_download_atomic (env : FtpDownloadEnv) (lp : List String) (fs : LocalFS) :
    (env.connectOk = false → FtpClient.download_file env lp fs = (fs, false)) ∧
    (env.retrData = none → FtpClient.download_file env lp fs = (fs, false)) ∧
    ((FtpClient.download_file env lp fs).2 = true →
      env.connectOk = true ∧ env.retrData.isSome = true ∧ env.quitOk = true ∧
      (FtpClient.download_file env lp fs).1 = fs.writeFile lp (env.retrData.getD [])) := by
  obtain ⟨c, r, q⟩ := env
  refine ⟨?_, ?_, ?_⟩
  · intro h
    subst h
    rfl
  · intro h
    subst h
    cases c <;> rfl
  · intro h
    cases c with
    | false => exact absurd h (by simp [FtpClient.download_file])
    | true =>
      cases r with
      | none => exact absurd h (by simp [FtpClient.download_file])
      | some data =>
        cases q with
        | false => exact absurd h (by simp [FtpClient.download_file])
        | true =>
          by_cases hd : fs.dirExists (parentDir lp) = true
          · refine ⟨rfl, rfl, rfl, ?_⟩
            simp [FtpClient.download_file, hd]
          · exact absurd h (by simp [FtpClient.download_file, hd])

/-- Claim C10, witness: a failed connect leaves the filesystem unchanged. -/
theorem C10_ftp_download_atomic_witness :
    ({ connectOk := false, retrData := some [1], quitOk := true } :
        FtpDownloadEnv).connectOk = false ∧
    FtpClient.download_file { connectOk := false, retrData := some [1], quitOk := true }
        ["a"] { dirs := [[]], files := [] } =
      ({ dirs := [[]], files := [] }, false) :=
  ⟨rfl,
   (C10_ftp_download_atomic { connectOk := false, retrData := some [1], quitOk := true }
      ["a"] { dirs := [[]], files := [] }).1 rfl⟩

/-- Claim C7, counterexample: when both backends fail, the returned error is a
fixed message that does not carry the two causes — different cause pairs
produce identical results, and the message names the protocols only. -/
theorem C7_cex_causes_not_aggregated :
    ConnectionManager.connect
        { server_ip := "h", username := "u", password := some "p",
          default_protocol := .Ftp, configured := true } none
        (Except.error "smb cause A") (Except.error "ftp cause A") =
      ConnectionManager.connect
        { server_ip := "h", username := "u", password := some "p",
          default_protocol := .Ftp, configured := true } none
        (Except.error "smb cause B") (Except.error "ftp cause B") ∧
    (ConnectionManager.connect
        { server_ip := "h", username := "u", password := some "p",
          default_protocol := .Ftp, configured := true } none
        (Except.error "smb cause A") (Except.error "ftp cause A")).2 =
      ConnectResult.networkErr "Failed to connect to file server via both SMB and FTP" := by
  exact ⟨rfl, rfl⟩

/-- Claim C7, amended: with no cached backend and a configured secret, SMB is
always attempted first; FTP (against `host:21`) is attempted only after
SMB's connect fails; the choice is independent of `default_protocol`; and
when both fail the result is a NetworkError with a fixed message naming
both protocols (the two causes are printed to stderr, not carried in the
returned error). -/
theorem C7_amended_connect_order (cfg : Config) (pw : String)
    (smbErr ftpErr : String) (hpw : cfg.password = some pw) :
    (∀ ftpRes, ConnectionManager.connect cfg none (Except.ok ()) ftpRes =
       ([ConnectAttempt.smb cfg.server_ip cfg.username pw "share"],
        ConnectResult.connected Protocol.Smb)) ∧
    (ConnectionManager.connect cfg none (Except.error smbErr) (Except.ok ()) =
       ([ConnectAttempt.smb cfg.server_ip cfg.username pw "share",
         ConnectAttempt.ftp (cfg.server_ip ++ ":21") cfg.username pw],
        ConnectResult.connected Protocol.Ftp)) ∧
    (ConnectionManager.connect cfg none (Except.error smbErr) (Except.error ftpErr) =
       ([ConnectAttempt.smb cfg.server_ip cfg.username pw "share",
         ConnectAttempt.ftp (cfg.server_ip ++ ":21") cfg.username pw],
        ConnectResult.networkErr "Failed to connect to file server via both SMB and FTP")) ∧
    (∀ (p q : Protocol) (cached : Option Protocol) (s f : Except String Unit),
       ConnectionManager.connect { cfg with default_protocol := p } cached s f =
       ConnectionManager.connect { cfg with default_protocol := q } cached s f) := by
  refine ⟨?_, ?_, ?_, ?_⟩
  · intro ftpRes
    simp [ConnectionManager.connect, hpw]
  · simp [ConnectionManager.connect, hpw]
  · simp [ConnectionManager.connect, hpw]
  · intro p q cached s f
    cases cached with
    | some b => rfl
    | none =>
      cases hp : cfg.password with
      | none => simp [ConnectionManager.connect, hp]
      | some pw' =>
        cases s with
        | ok u => simp [ConnectionManager.connect, hp]
        | error e =>
          cases f <;> simp [ConnectionManager.connect, hp]

/-- Claim C7, witness: a concrete configuration exercising the double-failure arm. -/
theorem C7_amended_connect_order_witness :
    ({ server_ip := "h", username := "u", password := some "p",
       default_protocol := .Smb, configured := true } : Config).password = some "p" ∧
    ConnectionManager.connect
        { server_ip := "h", username := "u", password := some "p",
          default_protocol := .Smb, configured := true } none
        (Except.error "no smb") (Except.error "no ftp") =
      ([ConnectAttempt.smb "h" "u" "p" "share",
        ConnectAttempt.ftp ("h" ++ ":21") "u" "p"],
       ConnectResult.networkErr "Failed to connect to file server via both SMB and FTP") :=
  ⟨rfl,
   (C7_amended_connect_order
      { server_ip := "h", username := "u", password := some "p",
        default_protocol := .Smb, configured := true } "p" "no smb" "no ftp" rfl).2.2.1⟩

/-- Claim C8: for every batch and every completion order of the admitted items,
`download_files` returns `ok` (a per-item failure never becomes a
collection-level error) with a result vector of exactly the input length
whose every element is some input item's individual result. -/
theorem C8_download_files_batch (envOf : String × String → ItemEnv)
    (files : List (String × String)) (completion : List (Fin files.length))
    (hperm : completion.Perm (List.finRange files.length)) :
    ∃ rs, ParallelDownloader.download_files envOf files completion = Except.ok rs ∧
      rs.length = files.length ∧
      ∀ r ∈ rs, ∃ it ∈ files, r = ParallelDownloader.download_single_file (envOf it) := by
  refine ⟨_, rfl, ?_, ?_⟩
  · rw [List.length_map, hperm.length_eq, List.length_finRange]
  · intro r hr
    obtain ⟨i, hi, hre⟩ := List.mem_map.mp hr
    exact ⟨files.get i, List.get_mem files i.1 i.2, hre.symm⟩

/-- Claim C8, witness: a two-item batch completing out of order, with one item
failing at the size query. -/
theorem C8_download_files_batch_witness :
    ([(1 : Fin 2), (0 : Fin 2)].Perm (List.finRange 2)) ∧
    ∃ rs, ParallelDownloader.download_files
        (fun it => if it.1 = "/fail.txt" then
            { sizeRes := Except.error "no size", mkdirRes := Except.ok (),
              dlRes := Except.ok () }
          else
            { sizeRes := Except.ok 3, mkdirRes := Except.ok (), dlRes := Except.ok () })
        [("/fail.txt", "a"), ("/success.txt", "b")] [(1 : Fin 2), (0 : Fin 2)] =
        Except.ok rs ∧
      rs.length = [("/fail.txt", "a"), ("/success.txt", "b")].length ∧
      ∀ r ∈ rs, ∃ it ∈ [("/fail.txt", "a"), ("/success.txt", "b")],
        r = ParallelDownloader.download_single_file
          ((fun it => if it.1 = "/fail.txt" then
              { sizeRes := Except.error "no size", mkdirRes := Except.ok (),
                dlRes := Except.ok () }
            else
              { sizeRes := Except.ok 3, mkdirRes := Except.ok (), dlRes := Except.ok () } :
              String × String → ItemEnv) it) :=
  ⟨by decide,
   C8_download_files_batch _ [("/fail.txt", "a"), ("/success.txt", "b")]
     [(1 : Fin 2), (0 : Fin 2)] (by decide)⟩

/-- The result of `find?` is unaffected by a filter whose predicate keeps every entry the
search predicate accepts. -/
theorem find?_filter_of_imp {α : Type} (l : List α) (q φ : α → Bool)
    (h : ∀ a, q a = true → φ a = true) : (l.filter φ).find? q = l.find? q := by
  induction l with
  | nil => rfl
  | cons x xs ih =>
    rw [List.filter_cons]
    cases hq : q x with
    | true =>
      rw [h x hq]
      simp [List.find?_cons, hq, ih]
    | false =>
      cases hφ : φ x with
      | true => simp [List.find?_cons, hq, ih]
      | false => simp [List.find?_cons, hq, ih]

/-- With distinct keys, `lookupSize` finds a present entry's size. -/
theorem lookupSize_of_mem_nodup (localFiles : List (String × Nat)) (n : String) (sz : Nat)
    (hnd : (localFiles.map Prod.fst).Nodup) (hmem : (n, sz) ∈ localFiles) :
    lookupSize localFiles n = some sz := by
  induction localFiles with
  | nil => cases hmem
  | cons x xs ih =>
    rw [List.map_cons, List.nodup_cons] at hnd
    rcases List.mem_cons.mp hmem with heq | hmem'
    · subst heq
      unfold lookupSize
      simp [List.find?_cons]
    · by_cases hx : x.1 = n
      · exact absurd (List.mem_map.mpr ⟨(n, sz), hmem', rfl⟩) (hx ▸ hnd.1)
      · unfold lookupSize at ih ⊢
        rw [List.find?_cons]
        have hbx : (x.1 == n) = false := by simpa using hx
        rw [hbx]
        exact ih hnd.2 hmem'

/-- Looking a name up after the downloads land: the download's size if the
name was downloaded, the old local entry otherwise. -/
theorem lookupSize_applyDownloads (localFiles : List (String × Nat))
    (dl : List RemoteFile) (n : String) :
    lookupSize (applyDownloads localFiles dl) n =
      match dl.find? (fun f => f.name == n) with
      | some f => some f.size
      | none => lookupSize localFiles n := by
  unfold lookupSize applyDownloads
  rw [List.find?_append, List.find?_map]
  have hcomp : ((fun p : String × Nat => p.1 == n) ∘ fun f : RemoteFile => (f.name, f.size)) =
      fun f : RemoteFile => f.name == n := rfl
  rw [hcomp]
  cases hfd : dl.find? (fun f => f.name == n) with
  | some f => rfl
  | none =>
    simp only [Option.map_none', Option.none_or]
    rw [find?_filter_of_imp]
    intro p hp
    have hp1 : p.1 = n := by simpa using hp
    rw [hp1, hfd]
    rfl

/-- Listing after the uploads land: the non-directory names are the old
ones followed by the uploaded names. -/
theorem remoteFileNames_applyUploads (remote : List RemoteFile) (remoteDir : String)
    (ul : List (String × Nat)) :
    remoteFileNames (applyUploads remote remoteDir ul) =
      remoteFileNames remote ++ ul.map Prod.fst := by
  unfold remoteFileNames applyUploads
  rw [List.filter_append, List.map_append]
  congr 1
  induction ul with
  | nil => rfl
  | cons x xs ih =>
    simp only [List.map_cons, List.filter_cons]
    simp [ih]

/-- Listing after the uploads land, restricted to non-directories: the old
non-directory entries followed by the uploaded entries. -/
theorem filter_applyUploads (remote : List RemoteFile) (remoteDir : String)
    (ul : List (String × Nat)) :
    (applyUploads remote remoteDir ul).filter (fun f => !f.is_dir) =
      remote.filter (fun f => !f.is_dir) ++
        ul.map (fun p =>
          { name := p.1, path := ⟨trimEndSlashes remoteDir.data ++ '/' :: p.1.data⟩,
            size := p.2, modified := (), is_dir := false }) := by
  unfold applyUploads
  rw [List.filter_append]
  congr 1
  induction ul with
  | nil => rfl
  | cons x xs ih =>
    simp only [List.map_cons, List.filter_cons]
    simp [ih]

/-- Claim C9: sync is idempotent — when every download and upload the first run
plans succeeds and nothing else changes, the second run's download set and
upload set are both empty: every remote non-directory name is then present
locally with the same size, and every local name is present remotely.  The
remote listing's non-directory names and the local scan's keys are
distinct, as they are for the scan of a real directory. -/
theorem C9_sync_idempotent (remote : List RemoteFile) (localFiles : List (String × Nat))
    (remoteDir : String)
    (hr : (remoteFileNames remote).Nodup)
    (hl : (localFiles.map Prod.fst).Nodup) :
    syncDownloadSet (applyUploads remote remoteDir (syncUploadSet remote localFiles))
        (applyDownloads localFiles (syncDownloadSet remote localFiles)) = [] ∧
    syncUploadSet (applyUploads remote remoteDir (syncUploadSet remote localFiles))
        (applyDownloads localFiles (syncDownloadSet remote localFiles)) = [] := by
  have hndRF : ((remote.filter fun f => !f.is_dir).map (fun f => f.name)).Nodup := hr
  -- the first run's download set is a filter of the non-directory listing
  have hdlRF : ∀ f ∈ syncDownloadSet remote localFiles,
      f ∈ remote.filter fun g => !g.is_dir := by
    intro f hf
    exact (List.mem_filter.mp hf).1
  -- looking up a listed non-directory after the downloads land
  have F1 : ∀ f ∈ (remote.filter fun g => !g.is_dir),
      lookupSize (applyDownloads localFiles (syncDownloadSet remote localFiles)) f.name =
        some f.size := by
    intro f hfRF
    rw [lookupSize_applyDownloads]
    cases hfd : (syncDownloadSet remote localFiles).find? (fun g => g.name == f.name) with
    | some g =>
      have hgmem := List.mem_of_find?_eq_some hfd
      have hgname : g.name = f.name := by
        have := List.find?_some hfd
        simpa using this
      have hgf : g = f :=
        List.inj_on_of_nodup_map hndRF (hdlRF g hgmem) hfRF hgname
      rw [hgf]
    | none =>
      have hfnot : f ∉ syncDownloadSet remote localFiles := by
        intro hf
        have hs : ((syncDownloadSet remote localFiles).find?
            (fun g => g.name == f.name)).isSome :=
          List.find?_isSome.mpr ⟨f, hf, by simp⟩
        rw [hfd] at hs
        exact Bool.noConfusion hs
      have hpred : (match lookupSize localFiles f.name with
          | some sz => sz != f.size
          | none => true) = false := by
        rw [Bool.eq_false_iff]
        intro hp
        apply hfnot
        unfold syncDownloadSet
        exact List.mem_filter.mpr ⟨hfRF, hp⟩
      cases hls : lookupSize localFiles f.name with
      | none =>
        rw [hls] at hpred
        exact Bool.noConfusion hpred
      | some sz =>
        rw [hls] at hpred
        have : sz = f.size := bne_eq_false_iff_eq.mp hpred
        exact congrArg some this
  -- looking up an uploaded file after the downloads land
  have F2 : ∀ p ∈ syncUploadSet remote localFiles,
      lookupSize (applyDownloads localFiles (syncDownloadSet remote localFiles)) p.1 =
        some p.2 := by
    intro p hp
    obtain ⟨hploc, hpcond⟩ := List.mem_filter.mp hp
    have hnmem : p.1 ∉ remoteFileNames remote := by
      intro hmem
      rw [List.contains_eq_any_beq] at hpcond
      simp only [Bool.not_eq_true', List.any_eq_false] at hpcond
      exact absurd (by simp) (hpcond p.1 hmem)
    rw [lookupSize_applyDownloads]
    cases hfd : (syncDownloadSet remote localFiles).find? (fun g => g.name == p.1) with
    | some g =>
      have hgmem := List.mem_of_find?_eq_some hfd
      have hgname : g.name = p.1 := by
        have := List.find?_some hfd
        simpa using this
      exact absurd (hgname ▸ List.mem_map.mpr ⟨g, hdlRF g hgmem, rfl⟩) hnmem
    | none =>
      exact lookupSize_of_mem_nodup localFiles p.1 p.2 hl (by exact hploc)
  constructor
  · apply List.filter_eq_nil_iff.mpr
    intro f hf
    rw [filter_applyUploads] at hf
    rcases List.mem_append.mp hf with hfRF | hfUp
    · simp only [F1 f hfRF]
      simp
    · obtain ⟨p, hpul, hfeq⟩ := List.mem_map.mp hfUp
      subst hfeq
      simp only [F2 p hpul]
      simp
  · apply List.filter_eq_nil_iff.mpr
    intro p hp
    rw [remoteFileNames_applyUploads]
    simp only [Bool.not_eq_true', Bool.not_eq_false]
    rw [List.contains_eq_any_beq, List.any_eq_true]
    refine ⟨p.1, ?_, by simp⟩
    unfold applyDownloads at hp
    rcases List.mem_append.mp hp with hpdl | hploc
    · obtain ⟨g, hgdl, hpeq⟩ := List.mem_map.mp hpdl
      apply List.mem_append_left
      subst hpeq
      exact List.mem_map.mpr ⟨g, hdlRF g hgdl, rfl⟩
    · have hploc' := (List.mem_filter.mp hploc).1
      by_cases hc : (remoteFileNames remote).contains p.1 = true
      · apply List.mem_append_left
        rw [List.contains_eq_any_beq, List.any_eq_true] at hc
        obtain ⟨n, hn, hbeq⟩ := hc
        have : p.1 = n := by simpa using hbeq
        rw [this]
        exact hn
      · apply List.mem_append_right
        apply List.mem_map.mpr
        refine ⟨p, ?_, rfl⟩
        unfold syncUploadSet
        exact List.mem_filter.mpr ⟨hploc', by
          simp only [Bool.not_eq_true']
          exact Bool.eq_false_iff.mpr hc⟩

/-- Claim C9, witness: remote `a.txt`(10), a subdirectory, `b.txt`(20); local
`a.txt`(10) and `c.txt`(5).  The first run downloads `b.txt` and uploads
`c.txt`; the second run plans nothing. -/
theorem C9_sync_idempotent_witness :
    (remoteFileNames
       [{ name := "a.txt", path := "/r/a.txt", size := 10, modified := (), is_dir := false },
        { name := "sub", path := "/r/sub", size := 0, modified := (), is_dir := true },
        { name := "b.txt", path := "/r/b.txt", size := 20, modified := (),
          is_dir := false }]).Nodup ∧
    ([("a.txt", 10), ("c.txt", 5)].map Prod.fst).Nodup ∧
    (syncDownloadSet
        (applyUploads
          [{ name := "a.txt", path := "/r/a.txt", size := 10, modified := (), is_dir := false },
           { name := "sub", path := "/r/sub", size := 0, modified := (), is_dir := true },
           { name := "b.txt", path := "/r/b.txt", size := 20, modified := (), is_dir := false }]
          "/r"
          (syncUploadSet
            [{ name := "a.txt", path := "/r/a.txt", size := 10, modified := (), is_dir := false },
             { name := "sub", path := "/r/sub", size := 0, modified := (), is_dir := true },
             { name := "b.txt", path := "/r/b.txt", size := 20, modified := (), is_dir := false }]
            [("a.txt", 10), ("c.txt", 5)]))
        (applyDownloads [("a.txt", 10), ("c.txt", 5)]
          (syncDownloadSet
            [{ name := "a.txt", path := "/r/a.txt", size := 10, modified := (), is_dir := false },
             { name := "sub", path := "/r/sub", size := 0, modified := (), is_dir := true },
             { name := "b.txt", path := "/r/b.txt", size := 20, modified := (), is_dir := false }]
            [("a.txt", 10), ("c.txt", 5)])) = [] ∧
     syncUploadSet
        (applyUploads
          [{ name := "a.txt", path := "/r/a.txt", size := 10, modified := (), is_dir := false },
           { name := "sub", path := "/r/sub", size := 0, modified := (), is_dir := true },
           { name := "b.txt", path := "/r/b.txt", size := 20, modified := (), is_dir := false }]
          "/r"
          (syncUploadSet
            [{ name := "a.txt", path := "/r/a.txt", size := 10, modified := (), is_dir := false },
             { name := "sub", path := "/r/sub", size := 0, modified := (), is_dir := true },
             { name := "b.txt", path := "/r/b.txt", size := 20, modified := (), is_dir := false }]
            [("a.txt", 10), ("c.txt", 5)]))
        (applyDownloads [("a.txt", 10), ("c.txt", 5)]
          (syncDownloadSet
            [{ name := "a.txt", path := "/r/a.txt", size := 10, modified := (), is_dir := false },
             { name := "sub", path := "/r/sub", size := 0, modified := (), is_dir := true },
             { name := "b.txt", path := "/r/b.txt", size := 20, modified := (), is_dir := false }]
            [("a.txt", 10), ("c.txt", 5)])) = []) :=
  ⟨by decide, by decide,
   C9_sync_idempotent
     [{ name := "a.txt", path := "/r/a.txt", size := 10, modified := (), is_dir := false },
      { name := "sub", path := "/r/sub", size := 0, modified := (), is_dir := true },
      { name := "b.txt", path := "/r/b.txt", size := 20, modified := (), is_dir := false }]
     [("a.txt", 10), ("c.txt", 5)] "/r" (by decide) (by decide)⟩
